import Mathlib

/-!
Verification of the audioarxiv document-structure pipeline.

Shallow embedding of the Python sources:
  - `src/audioarxiv/resources/paper.py`  (Paper: client settings, cached sections,
    the section classifier inside the `sections` property)
  - `src/audioarxiv/preprocess/math_equation.py` (`process_math_equations`)
  - `src/audioarxiv/audio/base.py` (Audio: rate/volume/pause setters, `read_article`)

Python strings are modelled as Lean `String` (lists of `Char`), with the relevant
`str` methods (`strip`, `isupper`, `endswith`, `split`, `replace`) re-implemented
over the ASCII fragment actually exercised by the program.  Python floats are
modelled as rationals `ℚ` (only order comparisons and clamping occur).  The
external collaborators (pyttsx3 engine, arxiv client, fitz block extraction,
sympy's `sympify`, nltk's sentence splitter) are modelled as explicit state
fields or function parameters.
-/

namespace Audioarxiv

/-- Python whitespace characters (ASCII fragment), as used by `str.strip`,
`str.split()` and the regex class `\s`. -/
def pyIsSpace (c : Char) : Bool :=
  c = ' ' || c = '\t' || c = '\n' || c = '\r' || c = '\x0b' || c = '\x0c'

/-- Python `str.strip()` on a character list: drop whitespace from both ends. -/
def pyStripList (l : List Char) : List Char :=
  ((l.dropWhile pyIsSpace).reverse.dropWhile pyIsSpace).reverse

/-- Model of `text.strip()` (paper.py line 223). -/
def pyStrip (s : String) : String :=
  String.mk (pyStripList s.data)

/-- A character carrying case information (ASCII fragment). -/
def isCased (c : Char) : Bool := c.isLower || c.isUpper

/-- Python `str.isupper()`: at least one cased character and no lowercase character. -/
def pyIsUpper (s : String) : Bool :=
  s.data.any isCased && s.data.all (fun c => !c.isLower)

/-- The class `\d` of the header regex. -/
def isDigitChar (c : Char) : Bool := c.isDigit

/-- The class `\w` of the header regex (ASCII fragment). -/
def isWordChar (c : Char) : Bool := c.isAlphanum || c = '_'

/-- DFA states for the regex `^\d+(\.\d+)*\s+\w+` (paper.py line 226), after the
first digit has been consumed: inside a digit run / right after a dot, a digit is
required / inside the whitespace run. -/
inductive NumState where
  | digits
  | needDigit
  | ws
deriving Repr, DecidableEq

/-- Deterministic scan equivalent to `re.match(r"^\d+(\.\d+)*\s+\w+", ...)` after
its first digit: the regex is backtracking-free because digits, `.` and
whitespace are pairwise disjoint character classes. -/
def numScan : NumState → List Char → Bool
  | _, [] => false
  | NumState.digits, c :: rest =>
      if isDigitChar c then numScan NumState.digits rest
      else if c = '.' then numScan NumState.needDigit rest
      else if pyIsSpace c then numScan NumState.ws rest
      else false
  | NumState.needDigit, c :: rest =>
      if isDigitChar c then numScan NumState.digits rest else false
  | NumState.ws, c :: rest =>
      if pyIsSpace c then numScan NumState.ws rest else isWordChar c

/-- The test `re.match(r"^\d+(\.\d+)*\s+\w+", text)` viewed as a Boolean. -/
def matchesNumbered (s : String) : Bool :=
  match s.data with
  | [] => false
  | c :: rest => isDigitChar c && numScan NumState.digits rest

/-- Python `text.endswith(":")`. -/
def endsWithColon (s : String) : Bool :=
  s.data.getLast? = some ':'

/-- The header test of paper.py line 226:
`text.isupper() or re.match(r"^\d+(\.\d+)*\s+\w+", text) or text.endswith(":")`. -/
def isHeaderText (t : String) : Bool :=
  pyIsUpper t || matchesNumbered t || endsWithColon t

/-- The section dictionary `{"header": ..., "content": [...]}` of paper.py. -/
structure Section where
  header : Option String
  content : List String
deriving Repr, DecidableEq

/-- Python truthiness of the flush guard
`if current_section["header"] or current_section["content"]` (paper.py lines 229,
237): `None` and the empty string are falsy headers, the empty list is falsy
content. -/
def sectionTruthy (s : Section) : Bool :=
  (match s.header with
   | none => false
   | some h => decide (h ≠ "")) || decide (s.content ≠ [])

/-- One iteration of the block loop of `Paper.sections` (paper.py lines 222-234),
acting on the pair (sections flushed so far, current accumulator). -/
def classifyStep (st : List Section × Section) (block : String) : List Section × Section :=
  let text := pyStrip block
  if isHeaderText text then
    (if sectionTruthy st.2 then st.1 ++ [st.2] else st.1, ⟨some text, []⟩)
  else
    (st.1, ⟨st.2.header, st.2.content ++ [text]⟩)

/-- The terminal flush of paper.py lines 236-238. -/
def finalFlush (st : List Section × Section) : List Section :=
  if sectionTruthy st.2 then st.1 ++ [st.2] else st.1

/-- The section classifier of `Paper.sections` (paper.py lines 217-238) as a pure
function of the extracted block texts (`block[4]` for each block of each page, in
page-major order). -/
def classifyBlocks (blocks : List String) : List Section :=
  finalFlush (blocks.foldl classifyStep ([], ⟨none, []⟩))

/-- The block texts a section accounts for: its header (when present) followed by
its content entries. -/
def sectionBlocks (s : Section) : List String :=
  (match s.header with
   | none => []
   | some h => [h]) ++ s.content

/-- All block texts accounted for by a section list, in order. -/
def sectionsFlatten (ss : List Section) : List String :=
  (ss.map sectionBlocks).flatten

/-!
Model of `preprocess/math_equation.py`.

`re.findall` for the two patterns `\$(.*?)\$` and `\$\$(.*?)\$\$` is modelled by
left-to-right scans.  The scans track the currently open capture (the regex `.`
does not match a newline, and a failed attempt at an opening delimiter resumes
scanning one position later, which is what the abandon-on-newline cases encode).
`sympify(...).srepr()` is an external sympy call, modelled as a function
parameter `oracle : String → Option String` returning the canonical
representation on success and `none` when `sympify` raises.
-/

/-- Model of `re.findall(r"\$(.*?)\$", text)`: the state is the open lazy capture (in
order), `none` while scanning for an opening `$`. -/
def scanInline : Option (List Char) → List Char → List (List Char)
  | _, [] => []
  | none, c :: rest =>
      if c = '$' then scanInline (some []) rest else scanInline none rest
  | some acc, c :: rest =>
      if c = '$' then acc :: scanInline none rest
      else if c = '\n' then scanInline none rest
      else scanInline (some (acc ++ [c])) rest

/-- Model of `re.findall(r"\$\$(.*?)\$\$", text)`: opening and closing delimiters are two
adjacent `$`; a lone `$` inside an open capture is captured. -/
def scanBlock : Option (List Char) → List Char → List (List Char)
  | _, [] => []
  | _, [_] => []
  | none, c :: d :: rest =>
      if c = '$' then
        (if d = '$' then scanBlock (some []) rest else scanBlock none (d :: rest))
      else scanBlock none (d :: rest)
  | some acc, c :: d :: rest =>
      if c = '$' then
        (if d = '$' then acc :: scanBlock none rest
         else scanBlock (some (acc ++ [c])) (d :: rest))
      else if c = '\n' then scanBlock none (d :: rest)
      else scanBlock (some (acc ++ [c])) (d :: rest)

/-- Python `str.replace(old, new)` (all non-overlapping occurrences, left to
right); the `Nat` argument counts characters of a just-matched occurrence still
to be skipped. -/
def replaceAux (old new : List Char) : Nat → List Char → List Char
  | _, [] => []
  | k + 1, _ :: rest => replaceAux old new k rest
  | 0, c :: rest =>
      if old.isPrefixOf (c :: rest) then new ++ replaceAux old new (old.length - 1) rest
      else c :: replaceAux old new 0 rest

/-- Python `s.replace(old, new)` on character lists. -/
def replaceList (old new s : List Char) : List Char :=
  replaceAux old new 0 s

/-- The inner loop of `process_math_equations` (math_equation.py lines 25-30):
for each captured `match`, replace every occurrence of `f"${match}$"` — single
dollar delimiters for both patterns, exactly as in the source — by
`f"Math: {sympify(match).srepr()}"`, or by `f"Equation: {match}"` when `sympify`
raises. -/
def applyMatches (oracle : String → Option String) (ms : List (List Char))
    (t : List Char) : List Char :=
  ms.foldl (fun acc m =>
    match oracle (String.mk m) with
    | some r => replaceList ('$' :: m ++ ['$']) ("Math: ".data ++ r.data) acc
    | none => replaceList ('$' :: m ++ ['$']) ("Equation: ".data ++ m) acc) t

/-- Function `process_math_equations` (math_equation.py lines 11-32): the single-dollar
pattern is processed first on the original text, then the double-dollar pattern
on the already-rewritten text. -/
def process_math_equations (oracle : String → Option String) (text : String) : String :=
  let l1 := applyMatches oracle (scanInline none text.data) text.data
  let l2 := applyMatches oracle (scanBlock none l1) l1
  String.mk l2

/-!
Model of `resources/paper.py`.

The `arxiv.Client` constructed at paper.py lines 141-143 is external; it is
modelled as a record of the three settings it is constructed from.  The PDF
download and the fitz block extraction of `Paper.sections` are external too;
the block texts they yield for this paper (`block[4]` per block per page, in
page-major order) are modelled as the immutable state field `pageBlocks`.
Setter arguments are taken at the type their `isinstance` guard admits, so the
guard's `ValueError` branch is unreachable in the model.
-/

/-- The `arxiv.Client(page_size=..., delay_seconds=..., num_retries=...)` value
of paper.py lines 141-143, keyed by its construction arguments. -/
structure ArxivClient where
  page_size : Int
  delay_seconds : ℚ
  num_retries : Int
deriving Repr, DecidableEq

/-- The mutable state of a `Paper` instance. -/
structure PaperState where
  page_size : Int
  delay_seconds : ℚ
  num_retries : Int
  _client : Option ArxivClient
  _sections : List Section
  pageBlocks : List String
deriving Repr, DecidableEq

/-- The `page_size` setter (paper.py lines 45-58): stores the value and resets
the cached client to `None`. -/
def PaperState.set_page_size (p : PaperState) (value : Int) : PaperState :=
  { p with page_size := value, _client := none }

/-- The `delay_seconds` setter (paper.py lines 69-80): stores the value and
resets the cached client to `None`. -/
def PaperState.set_delay_seconds (p : PaperState) (value : ℚ) : PaperState :=
  { p with delay_seconds := value, _client := none }

/-- The `num_retries` setter (paper.py lines 91-104): stores the value; line 104
is the bare expression `self._client`, which has no effect, so the cached client
is left in place. -/
def PaperState.set_num_retries (p : PaperState) (value : Int) : PaperState :=
  { p with num_retries := value }

/-- The `client` property (paper.py lines 133-144): construct and cache a client
from the current settings when the cache is `None`, otherwise return the cache. -/
def PaperState.clientAccess (p : PaperState) : ArxivClient × PaperState :=
  match p._client with
  | some c => (c, p)
  | none =>
      (⟨p.page_size, p.delay_seconds, p.num_retries⟩,
       { p with _client := some ⟨p.page_size, p.delay_seconds, p.num_retries⟩ })

/-- The `sections` property (paper.py lines 208-240): when `len(self._sections)
== 0`, download and classify the page blocks, store the result in `_sections`
and return it, else return the stored list.  The returned Boolean records
whether the download-and-classify branch ran on this access. -/
def PaperState.sectionsAccess (p : PaperState) : List Section × PaperState × Bool :=
  if p._sections.length = 0 then
    let s := classifyBlocks p.pageBlocks
    (s, { p with _sections := s }, true)
  else
    (p._sections, p, false)

/-!
Model of `audio/base.py`.

The pyttsx3 engine is external; the model keeps the two properties the setters
under scrutiny write to it (`engine.setProperty('rate', ...)` and
`engine.setProperty('volume', ...)`) as a record.  Logger calls are modelled as
Booleans recording that a message at the corresponding level was emitted.
-/

/-- The pyttsx3 engine properties written by the `Audio` setters. -/
structure EngineState where
  rate : ℚ
  volume : ℚ
deriving Repr, DecidableEq

/-- The state of an `Audio` instance relevant to its numeric setters. -/
structure AudioState where
  _rate : ℚ
  _volume : ℚ
  _pause_seconds : ℚ
  engine : EngineState
deriving Repr, DecidableEq

/-- Python `min(a, b)` on numbers (the first argument wins ties). -/
def pyMin (a b : ℚ) : ℚ := if a ≤ b then a else b

/-- Python `max(a, b)` on numbers (the first argument wins ties). -/
def pyMax (a b : ℚ) : ℚ := if a < b then b else a

/-- The `rate` setter (base.py lines 54-64): `self._rate = max(50, min(500,
rate))` followed by `self.engine.setProperty('rate', rate)` — the engine
receives the raw argument `rate`, not `self._rate`. -/
def AudioState.set_rate (a : AudioState) (rate : ℚ) : AudioState :=
  { a with _rate := pyMax 50 (pyMin 500 rate),
           engine := { a.engine with rate := rate } }

/-- The `volume` setter (base.py lines 75-83): `self._volume = max(0.0, min(1.0,
volume))` followed by `self.engine.setProperty('volume', volume)` — the engine
receives the raw argument `volume`, not `self._volume`. -/
def AudioState.set_volume (a : AudioState) (volume : ℚ) : AudioState :=
  { a with _volume := pyMax 0 (pyMin 1 volume),
           engine := { a.engine with volume := volume } }

/-- The `pause_seconds` setter (base.py lines 131-141): a negative value is
rejected with `logger.error` and the stored value is kept; the Boolean records
whether the error branch ran. -/
def AudioState.set_pause_seconds (a : AudioState) (value : ℚ) : AudioState × Bool :=
  if value < 0 then (a, true)
  else ({ a with _pause_seconds := value }, false)

/-- Model of `Audio.__init__` (base.py lines 12-32) with the default arguments `rate=140,
volume=0.9, pause_seconds=0.1`, run against a fresh engine `e`: each setter is
invoked in order; the pre-setter numeric fields (Python attributes not yet
assigned) are dummies, all overwritten before they can be read. -/
def audioInit (e : EngineState) : AudioState :=
  ((AudioState.set_rate ⟨0, 0, 0, e⟩ 140 |>.set_volume (9/10)).set_pause_seconds (1/10)).1

/-- A sequence of `pause_seconds` setter calls starting from a state. -/
def applyPauseSeq (a : AudioState) (vs : List ℚ) : AudioState :=
  vs.foldl (fun s v => (s.set_pause_seconds v).1) a

/-!
Model of `Audio.read_article` (base.py lines 161-176).

`get_sentences` comes from `preprocess/article.py`, which the tree only
references without containing; it is taken as a function parameter.  A Python value that
may or may not be a `str` is modelled by `PyVal`.  The result records the number
of warning-level log messages emitted and the utterance strings dispatched to
the engine (`engine.say`), in order.
-/

/-- A Python value as seen by `isinstance(article, str)`. -/
inductive PyVal where
  | str : String → PyVal
  | int : Int → PyVal
  | float : ℚ → PyVal
  | none : PyVal
  | listOf : List PyVal → PyVal
deriving Repr

/-- The test `isinstance(article, str)`. -/
def PyVal.isStr : PyVal → Bool
  | .str _ => true
  | _ => false

/-- Python `str.split()` with no separator: split on whitespace runs, discarding empty
pieces; `acc` holds the characters of the word being accumulated, reversed. -/
def splitWsAux (acc : List Char) : List Char → List (List Char)
  | [] => if acc = [] then [] else [acc.reverse]
  | c :: rest =>
      if pyIsSpace c then
        (if acc = [] then splitWsAux [] rest else acc.reverse :: splitWsAux [] rest)
      else splitWsAux (c :: acc) rest

/-- Python `text.split()`. -/
def pySplit (s : String) : List String :=
  (splitWsAux [] s.data).map String.mk

/-- Model of `Audio.clean_text` (base.py lines 148-159):
`" ".join(text.split()).replace('\n', ' ').strip()`. -/
def clean_text (text : String) : String :=
  pyStrip (String.mk (((" ".intercalate (pySplit text)).data).map
    (fun c => if c = '\n' then ' ' else c)))

/-- The observable outcome of one `read_article` call. -/
structure ReadResult where
  warnings : Nat
  utterances : List String
deriving Repr, DecidableEq

/-- Model of `Audio.read_article` (base.py lines 161-176): a non-`str` argument is logged
at warning level and the method returns at once — the branch contains no raising
operation and dispatches nothing to the engine; a `str` argument is cleaned,
split into sentences by the external `get_sentences` and each sentence is
dispatched in order. -/
def read_article (get_sentences : String → List String) (article : PyVal) : ReadResult :=
  match article with
  | .str s => ⟨0, get_sentences (clean_text s)⟩
  | _ => ⟨1, []⟩

/-! ### Helper lemmas about the section classifier -/

/-- A string the header test accepts is non-empty. -/
lemma isHeaderText_ne_empty {t : String} (h : isHeaderText t = true) : t ≠ "" := by
  intro he
  subst he
  exact absurd h (by decide)

/-- A section whose header (when present) passed the header test and whose flush
guard is falsy accounts for no blocks at all. -/
lemma sectionBlocks_of_not_truthy (cur : Section)
    (hcur : ∀ h, cur.header = some h → isHeaderText h = true)
    (ht : sectionTruthy cur = false) : sectionBlocks cur = [] := by
  obtain ⟨h, c⟩ := cur
  cases h with
  | none =>
      simp only [sectionTruthy, Bool.or_eq_false_iff, decide_eq_false_iff_not,
        Decidable.not_not] at ht
      simp [sectionBlocks, ht.2]
  | some hd =>
      simp only [sectionTruthy, Bool.or_eq_false_iff, decide_eq_false_iff_not,
        Decidable.not_not] at ht
      have hhd : isHeaderText hd = true := hcur hd rfl
      rw [ht.1] at hhd
      exact absurd hhd (by decide)

/-- Appending one flushed section to the result extends the accounted blocks. -/
lemma sectionsFlatten_snoc (done : List Section) (s : Section) :
    sectionsFlatten (done ++ [s]) = sectionsFlatten done ++ sectionBlocks s := by
  simp [sectionsFlatten]

/-- The blocks accounted for by the terminal flush. -/
lemma flatten_finalFlush (done : List Section) (cur : Section)
    (hcur : ∀ h, cur.header = some h → isHeaderText h = true) :
    sectionsFlatten (finalFlush (done, cur)) = sectionsFlatten done ++ sectionBlocks cur := by
  by_cases ht : sectionTruthy cur
  · simp [finalFlush, ht, sectionsFlatten_snoc]
  · rw [sectionBlocks_of_not_truthy cur hcur (by simpa using ht)]
    simp [finalFlush, ht]

/-- Appending a content entry to the accumulator appends it to its blocks. -/
lemma sectionBlocks_snoc (h : Option String) (c : List String) (x : String) :
    sectionBlocks ⟨h, c ++ [x]⟩ = sectionBlocks ⟨h, c⟩ ++ [x] := by
  cases h <;> simp [sectionBlocks]

/-- Invariant of the block loop: the blocks accounted for by the final result
are those already flushed, those of the open accumulator, and the stripped texts
of the blocks still to come, in order. -/
lemma classify_fold (ts : List String) : ∀ (done : List Section) (cur : Section),
    (∀ h, cur.header = some h → isHeaderText h = true) →
    sectionsFlatten (finalFlush (ts.foldl classifyStep (done, cur)))
      = sectionsFlatten done ++ sectionBlocks cur ++ ts.map pyStrip := by
  induction ts with
  | nil =>
      intro done cur hcur
      simp [flatten_finalFlush done cur hcur]
  | cons t ts ih =>
      intro done cur hcur
      simp only [List.foldl_cons, List.map_cons]
      by_cases hh : isHeaderText (pyStrip t)
      · rw [show classifyStep (done, cur) t = (finalFlush (done, cur), ⟨some (pyStrip t), []⟩)
          from by simp [classifyStep, finalFlush, hh]]
        rw [ih _ _ (by intro h hsome; injection hsome with hs; rw [← hs]; exact hh)]
        rw [flatten_finalFlush done cur hcur]
        simp [sectionBlocks]
      · rw [show classifyStep (done, cur) t = (done, ⟨cur.header, cur.content ++ [pyStrip t]⟩)
          from by simp [classifyStep, hh]]
        rw [ih _ _ (by intro h hsome; exact hcur h hsome)]
        rw [show (⟨cur.header, cur.content ++ [pyStrip t]⟩ : Section)
              = ⟨(⟨cur.header, cur.content⟩ : Section).header,
                 (⟨cur.header, cur.content⟩ : Section).content ++ [pyStrip t]⟩ from rfl,
            sectionBlocks_snoc]
        simp

/-- The classifier accounts for exactly the stripped input blocks, in order. -/
lemma flatten_classify (ts : List String) :
    sectionsFlatten (classifyBlocks ts) = ts.map pyStrip := by
  have h := classify_fold ts [] ⟨none, []⟩ (by intro h hsome; cases hsome)
  simpa [classifyBlocks, sectionsFlatten, sectionBlocks] using h

/-- The content entries of a section list form a sublist of all its accounted
blocks (the headers are the dropped elements). -/
lemma contents_sublist_flatten (ss : List Section) :
    ((ss.map Section.content).flatten).Sublist (sectionsFlatten ss) := by
  induction ss with
  | nil => simp [sectionsFlatten]
  | cons s ss ih =>
      simp only [List.map_cons, List.flatten_cons, sectionsFlatten]
      exact List.Sublist.append (List.sublist_append_right _ _) ih

/-! ### Helper lemmas about the math normalizer -/

/-- Without a dollar character the inline scan finds no match. -/
lemma scanInline_eq_nil (l : List Char) (h : ∀ c ∈ l, c ≠ '$') :
    scanInline none l = [] := by
  induction l with
  | nil => rfl
  | cons c rest ih =>
      have hc : c ≠ '$' := h c (List.mem_cons_self c rest)
      simp only [scanInline, if_neg hc]
      exact ih (fun d hd => h d (List.mem_cons_of_mem c hd))

/-- Without a dollar character the block scan finds no match. -/
lemma scanBlock_eq_nil (l : List Char) (h : ∀ c ∈ l, c ≠ '$') :
    scanBlock none l = [] := by
  induction l with
  | nil => rfl
  | cons c rest ih =>
      cases rest with
      | nil => rfl
      | cons d rest2 =>
          have hc : c ≠ '$' := h c (List.mem_cons_self _ _)
          simp only [scanBlock, if_neg hc]
          exact ih (fun x hx => h x (List.mem_cons_of_mem c hx))

/-! ### Helper lemmas about the audio setters -/

/-- The `pause_seconds` setter never drives the stored value negative. -/
lemma applyPauseSeq_nonneg (vs : List ℚ) : ∀ (a : AudioState),
    0 ≤ a._pause_seconds → 0 ≤ (applyPauseSeq a vs)._pause_seconds := by
  induction vs with
  | nil => intro a ha; simpa [applyPauseSeq] using ha
  | cons v vs ih =>
      intro a ha
      have hstep : 0 ≤ ((a.set_pause_seconds v).1)._pause_seconds := by
        by_cases hv : v < 0
        · simpa [AudioState.set_pause_seconds, hv] using ha
        · simpa [AudioState.set_pause_seconds, hv] using le_of_not_lt hv
      have h2 := ih ((a.set_pause_seconds v).1) hstep
      simpa [applyPauseSeq, List.foldl_cons] using h2

/-- The stored pause after construction with the defaults. -/
lemma audioInit_pause (e : EngineState) : (audioInit e)._pause_seconds = 1/10 := by
  norm_num [audioInit, AudioState.set_pause_seconds]

/-! ### The claims -/

/-- C1. Every block consumed by the section classifier is assigned to exactly
one output section — as that section's header or as one content entry: the
accounted blocks of the output, read in order, are exactly the stripped input
blocks, so no block text is dropped and none is duplicated (each text occurs
with the same multiplicity on both sides). -/
theorem classifier_assigns_every_block_once (ts : List String) :
    sectionsFlatten (classifyBlocks ts) = ts.map pyStrip ∧
    ∀ x, (sectionsFlatten (classifyBlocks ts)).count x = (ts.map pyStrip).count x := by
  refine ⟨flatten_classify ts, fun x => ?_⟩
  rw [flatten_classify ts]

/-- C2 (counterexample). The classifier appends the raw stripped text of a
non-header block, not its math-normalized form: on the single non-header block
`"$x$"` the output content entry is `"$x$"` itself, while the math normalizer
(under a parse behaviour that rejects `x`, as the claim's fallback clause
allows) turns it into `"Equation: x"`. -/
theorem classifier_applies_no_normalizer_cex :
    classifyBlocks ["$x$"] = [⟨none, ["$x$"]⟩] ∧
    process_math_equations (fun _ => Option.none) "$x$" = "Equation: x" ∧
    "$x$" ≠ "Equation: x" :=
  ⟨by decide, by decide, by decide⟩

/-- C2 (amended). The Math Normalizer is not applied during classification: a
block the classifier treats as non-header contributes its stripped text itself,
unmodified, to the current accumulator's content, and consequently every
content entry of the output is one of the stripped input blocks verbatim (the
content entries form a sublist of the stripped block sequence). -/
theorem classifier_appends_stripped_text_verbatim :
    (∀ ts : List String,
        (((classifyBlocks ts).map Section.content).flatten).Sublist (ts.map pyStrip)) ∧
    (∀ (st : List Section × Section) (b : String), isHeaderText (pyStrip b) = false →
        (classifyStep st b).1 = st.1 ∧
        (classifyStep st b).2.header = st.2.header ∧
        (classifyStep st b).2.content = st.2.content ++ [pyStrip b]) := by
  constructor
  · intro ts
    have h := contents_sublist_flatten (classifyBlocks ts)
    rwa [flatten_classify ts] at h
  · intro st b hb
    refine ⟨by simp [classifyStep, hb], by simp [classifyStep, hb], by simp [classifyStep, hb]⟩

/-- C2 (witness for the amended theorem), at the block sequence
`["RESULTS", "some text"]` and a non-header step on `" body "`. -/
theorem classifier_appends_stripped_text_verbatim_witness :
    ((((classifyBlocks ["RESULTS", "some text"]).map Section.content).flatten).Sublist
      (["RESULTS", "some text"].map pyStrip)) ∧
    (classifyStep ([], ⟨none, []⟩) " body ").2.content = [] ++ [pyStrip " body "] :=
  ⟨classifier_appends_stripped_text_verbatim.1 ["RESULTS", "some text"],
   (classifier_appends_stripped_text_verbatim.2 ([], ⟨none, []⟩) " body " (by decide)).2.2⟩

/-- C3 (counterexample). A document whose computed section sequence is empty is
recomputed on every access: with no extractable blocks, the first `sections`
access runs the download-and-classify branch and so does the second access on
the resulting state, contradicting the claim that every subsequent access
returns the cached sequence without recomputation. -/
theorem sections_empty_cache_recomputes_cex :
    ((⟨100, 3, 3, Option.none, [], []⟩ : PaperState).sectionsAccess).2.2 = true ∧
    (((⟨100, 3, 3, Option.none, [], []⟩ : PaperState).sectionsAccess).2.1.sectionsAccess).2.2
      = true :=
  ⟨by decide, by decide⟩

/-- C3 (amended). The section sequence is computed on first access; it is
cached — and every subsequent access returns it without recomputation — exactly
when the computed sequence is non-empty (the empty list doubles as the cache's
`not yet computed` sentinel, so a document whose computed sequence is empty
recomputes on every access). -/
theorem sections_cached_when_nonempty (p : PaperState)
    (h : (p.sectionsAccess).1 ≠ []) :
    (p.sectionsAccess).2.1.sectionsAccess
      = ((p.sectionsAccess).1, (p.sectionsAccess).2.1, false) := by
  by_cases h0 : p._sections.length = 0
  · have hval : (p.sectionsAccess).1 = classifyBlocks p.pageBlocks := by
      simp [PaperState.sectionsAccess, h0]
    have hst : (p.sectionsAccess).2.1 = { p with _sections := classifyBlocks p.pageBlocks } := by
      simp [PaperState.sectionsAccess, h0]
    rw [hval] at h
    rw [hst, hval]
    simp [PaperState.sectionsAccess, List.length_eq_zero, h]
  · have hval : (p.sectionsAccess).1 = p._sections := by
      simp [PaperState.sectionsAccess, h0]
    have hst : (p.sectionsAccess).2.1 = p := by
      simp [PaperState.sectionsAccess, h0]
    rw [hst, hval]
    simp [PaperState.sectionsAccess, h0]

/-- C3 (witness for the amended theorem), on a paper whose single page yields
the blocks `["INTRO", "hello"]`. -/
theorem sections_cached_when_nonempty_witness :
    ((⟨100, 3, 3, Option.none, [], ["INTRO", "hello"]⟩ : PaperState).sectionsAccess).1 ≠ [] ∧
    ((⟨100, 3, 3, Option.none, [], ["INTRO", "hello"]⟩ : PaperState).sectionsAccess).2.1.sectionsAccess
      = (((⟨100, 3, 3, Option.none, [], ["INTRO", "hello"]⟩ : PaperState).sectionsAccess).1,
         ((⟨100, 3, 3, Option.none, [], ["INTRO", "hello"]⟩ : PaperState).sectionsAccess).2.1,
         false) :=
  ⟨by decide, sections_cached_when_nonempty ⟨100, 3, 3, Option.none, [], ["INTRO", "hello"]⟩
    (by decide)⟩

/-- C4 (evaluation at the failing input). On the block-math input `"$$1+1$$"`
the normalizer does not replace the double-dollar span with `"Math: "` followed
by the canonical form of `1+1` (nor with an `"Equation: "` fallback for it):
the single-dollar pattern, processed first, captures the two empty strings
between adjacent delimiters, and replacing `"$$"` by `"Equation: "` yields
`"Equation: 1+1Equation: "` — the oracle reflects sympy, which parses `1+1`
and raises on the empty string. -/
theorem block_math_span_mangled :
    process_math_equations
        (fun s => if s = "1+1" then some "Add(Integer(1), Integer(1))" else Option.none)
        "$$1+1$$"
      = "Equation: 1+1Equation: " := by
  decide

/-- C5. Classifying `["RESULTS", "text1", "3.2 Discussion", "text2"]` yields
exactly the two sections `{header: "RESULTS", content: ["text1"]}` and
`{header: "3.2 Discussion", content: ["text2"]}` in order: the all-empty
initial accumulator is not flushed, and each header flush closes the previous
section. -/
theorem flush_ordering_example :
    classifyBlocks ["RESULTS", "text1", "3.2 Discussion", "text2"]
      = [⟨some "RESULTS", ["text1"]⟩, ⟨some "3.2 Discussion", ["text2"]⟩] := by
  decide

/-- C6. On input containing no dollar delimiter neither pattern matches, so the
normalizer returns its input unchanged — for every parse behaviour of the
external symbolic parser — and is consequently idempotent on such text. -/
theorem normalize_no_dollar_identity (oracle : String → Option String) (text : String)
    (h : ∀ c ∈ text.data, c ≠ '$') :
    process_math_equations oracle text = text ∧
    process_math_equations oracle (process_math_equations oracle text) =
      process_math_equations oracle text := by
  have h1 : process_math_equations oracle text = text := by
    simp only [process_math_equations, scanInline_eq_nil text.data h, applyMatches,
      List.foldl_nil]
    rw [scanBlock_eq_nil text.data h]
    rfl
  exact ⟨h1, by rw [h1, h1]⟩

/-- C6 (witness), on `"no markup here"` under a parser that rejects everything. -/
theorem normalize_no_dollar_identity_witness :
    (∀ c ∈ "no markup here".data, c ≠ '$') ∧
    process_math_equations (fun _ => Option.none) "no markup here" = "no markup here" :=
  ⟨by decide,
   (normalize_no_dollar_identity (fun _ => Option.none) "no markup here" (by decide)).1⟩

/-- C7. A non-string argument to `read_article` produces exactly one
warning-level signal and no utterances, for every sentence-splitting
collaborator: the call is a no-op that returns normally. -/
theorem read_article_non_string_noop (gs : String → List String) (article : PyVal)
    (h : article.isStr = false) :
    read_article gs article = ⟨1, []⟩ := by
  cases article with
  | str s => exact absurd h (by simp [PyVal.isStr])
  | int n => rfl
  | float q => rfl
  | none => rfl
  | listOf l => rfl

/-- C7 (witness), at the integer argument `3`. -/
theorem read_article_non_string_noop_witness :
    read_article (fun _ => []) (PyVal.int 3) = ⟨1, []⟩ :=
  read_article_non_string_noop (fun _ => []) (PyVal.int 3) rfl

/-- C8 (evaluation at the failing inputs). After `rate = 1000` the stored
`_rate` is clamped to `500` but the playback engine's rate property is set to
the raw `1000`; after `volume = 2` the stored `_volume` is clamped to `1` but
the engine's volume property is set to the raw `2` — the engine receives the
raw, not the clamped, values. -/
theorem engine_receives_raw_rate_volume :
    (((audioInit ⟨0, 0⟩).set_rate 1000)._rate = 500 ∧
      ((audioInit ⟨0, 0⟩).set_rate 1000).engine.rate = 1000) ∧
    (((audioInit ⟨0, 0⟩).set_volume 2)._volume = 1 ∧
      ((audioInit ⟨0, 0⟩).set_volume 2).engine.volume = 2) :=
  ⟨⟨rfl, rfl⟩, ⟨rfl, rfl⟩⟩

/-- C9. The `page_size` and `delay_seconds` setters store their value, reset the
cached client (so the next `client` access constructs a fresh client from the
updated settings), and change no other field; the `num_retries` setter stores
its value and changes nothing else — in particular it leaves the cached client
in place, so an already-constructed client keeps being returned with its old
`num_retries`. -/
theorem paper_setter_frame :
    (∀ (p : PaperState) (v : Int),
        (p.set_page_size v).page_size = v ∧
        (p.set_page_size v)._client = Option.none ∧
        (p.set_page_size v).delay_seconds = p.delay_seconds ∧
        (p.set_page_size v).num_retries = p.num_retries ∧
        (p.set_page_size v)._sections = p._sections ∧
        (p.set_page_size v).pageBlocks = p.pageBlocks ∧
        ((p.set_page_size v).clientAccess).1 = ⟨v, p.delay_seconds, p.num_retries⟩) ∧
    (∀ (p : PaperState) (v : ℚ),
        (p.set_delay_seconds v).delay_seconds = v ∧
        (p.set_delay_seconds v)._client = Option.none ∧
        (p.set_delay_seconds v).page_size = p.page_size ∧
        (p.set_delay_seconds v).num_retries = p.num_retries ∧
        (p.set_delay_seconds v)._sections = p._sections ∧
        (p.set_delay_seconds v).pageBlocks = p.pageBlocks ∧
        ((p.set_delay_seconds v).clientAccess).1 = ⟨p.page_size, v, p.num_retries⟩) ∧
    (∀ (p : PaperState) (v : Int),
        (p.set_num_retries v).num_retries = v ∧
        (p.set_num_retries v)._client = p._client ∧
        (p.set_num_retries v).page_size = p.page_size ∧
        (p.set_num_retries v).delay_seconds = p.delay_seconds ∧
        (p.set_num_retries v)._sections = p._sections ∧
        (p.set_num_retries v).pageBlocks = p.pageBlocks ∧
        ∀ c, p._client = some c → ((p.set_num_retries v).clientAccess).1 = c) := by
  refine ⟨fun p v => ⟨rfl, rfl, rfl, rfl, rfl, rfl, rfl⟩,
          fun p v => ⟨rfl, rfl, rfl, rfl, rfl, rfl, rfl⟩,
          fun p v => ⟨rfl, rfl, rfl, rfl, rfl, rfl, fun c hc => ?_⟩⟩
  simp [PaperState.set_num_retries, PaperState.clientAccess, hc]

/-- C9 (witness): on a paper with a cached client, setting `num_retries` to `7`
still returns the old client. -/
theorem paper_setter_frame_witness :
    (((⟨100, 3, 3, some ⟨100, 3, 3⟩, [], []⟩ : PaperState).set_num_retries 7).clientAccess).1
      = ⟨100, 3, 3⟩ :=
  (paper_setter_frame.2.2 ⟨100, 3, 3, some ⟨100, 3, 3⟩, [], []⟩ 7).2.2.2.2.2.2 ⟨100, 3, 3⟩ rfl

/-- C10. A negative value passed to the `pause_seconds` setter is rejected with
an error-level signal and leaves the stored value unchanged; the other numeric
setters do not touch the stored pause; consequently the stored pause is
non-negative after construction with the defaults and after any sequence of
`pause_seconds` setter calls. -/
theorem pause_seconds_rejects_negative_and_stays_nonneg :
    (∀ (a : AudioState) (v : ℚ), v < 0 → a.set_pause_seconds v = (a, true)) ∧
    (∀ (a : AudioState) (r : ℚ), (a.set_rate r)._pause_seconds = a._pause_seconds) ∧
    (∀ (a : AudioState) (w : ℚ), (a.set_volume w)._pause_seconds = a._pause_seconds) ∧
    (∀ (e : EngineState) (vs : List ℚ),
        0 ≤ (applyPauseSeq (audioInit e) vs)._pause_seconds) := by
  refine ⟨fun a v hv => by simp [AudioState.set_pause_seconds, hv],
          fun a r => rfl, fun a w => rfl, fun e vs => ?_⟩
  refine applyPauseSeq_nonneg vs (audioInit e) ?_
  rw [audioInit_pause]
  norm_num

/-- C10 (witness): the setter rejects `-1` on a freshly constructed state, and
the stored pause stays non-negative across the setter sequence `[5, -2]`. -/
theorem pause_seconds_rejects_negative_and_stays_nonneg_witness :
    (audioInit ⟨0, 0⟩).set_pause_seconds (-1) = (audioInit ⟨0, 0⟩, true) ∧
    0 ≤ (applyPauseSeq (audioInit ⟨0, 0⟩) [5, -2])._pause_seconds :=
  ⟨pause_seconds_rejects_negative_and_stays_nonneg.1 (audioInit ⟨0, 0⟩) (-1) (by decide),
   pause_seconds_rejects_negative_and_stays_nonneg.2.2.2 ⟨0, 0⟩ [5, -2]⟩

end Audioarxiv

